import Mathlib

/-!
# hardhat.config.js

A shallow embedding of the one source file of the repository, `hardhat.config.js`,
and the properties of its specification.

The file is a script of five statements, run top to bottom when the module is loaded:

1. `require("@nomicfoundation/hardhat-toolbox")`  (external plugin, no binding kept)
2. `require("dotenv").config()`                   (external, rewrites `process.env`)
3. `const { API_URL, PRIVATE_KEY } = process.env`
4. `task("accounts", "Prints the list of accounts", async (taskArgs, hre) => ...)`
5. `module.exports = { solidity: "0.8.20", settings: { optimizer: { ... } } }`

`config` of dotenv and `task` of the task runner are functions of external packages;
the embedding takes them as the fields of a `Host`.
-/

namespace HardhatConfig

/-! ## Values -/

/-- The JavaScript values the file manipulates: `undefined`, booleans, integer number
literals, strings and object literals (fields in source order). -/
inductive JSValue where
  | undefined : JSValue
  | bool (b : Bool) : JSValue
  | number (n : Int) : JSValue
  | string (s : String) : JSValue
  | object (fields : List (String × JSValue)) : JSValue

namespace JSValue

/-- Property access `v.key`: the value of the field, `undefined` when there is none. -/
def get : JSValue → String → JSValue
  | object fields, key => (fields.lookup key).getD undefined
  | _, _ => undefined

/-- The own property names of a value, in order (`Object.keys`). -/
def keys : JSValue → List String
  | object fields => fields.map Prod.fst
  | _ => []

/-- The `in` test on an object: whether the value carries a field of that name. -/
def hasField (v : JSValue) (key : String) : Bool :=
  v.keys.contains key

end JSValue

/-! ## Environment -/

/-- The variables of `process.env`: names with their string values. -/
abbrev ProcessEnv := List (String × String)

/-- Reading `process.env.NAME`: the string when the variable is set, `undefined` otherwise. -/
def ProcessEnv.read (env : ProcessEnv) (name : String) : JSValue :=
  match env.lookup name with
  | some value => JSValue.string value
  | none => JSValue.undefined

/-! ## The `accounts` task -/

/-- A signing identity as the task uses it: only `account.address` is read. -/
structure Signer where
  address : String

/-- The execution context `hre`, as far as the task uses it: the outcome of
`await hre.ethers.getSigners()`, either a rejection or the list of identities. -/
structure HardhatRuntimeEnvironment where
  getSigners : Except String (List Signer)

/-- Standard output as the list of lines written so far, oldest first. -/
abbrev Console := List String

/-- The call `console.log(line)` writes one line. -/
def consoleLog (line : String) (out : Console) : Console :=
  out ++ [line]

/-- The loop `for (const account of accounts) { console.log(account.address); }`. -/
def forOfAccounts : List Signer → Console → Console
  | [], out => out
  | account :: rest, out => forOfAccounts rest (consoleLog account.address out)

/-- The type of a task action: from the task arguments, the execution context and the
console before the run, to the console after the run and the settled result. -/
abbrev TaskAction := JSValue → HardhatRuntimeEnvironment → Console → Console × Except String JSValue

/-- The action `async (taskArgs, hre) => { ... }` of lines 10 to 16. A rejected
`getSigners` rejects the action before anything is printed; otherwise the loop
runs and the action resolves to `undefined` (there is no `return`). -/
def accountsAction : TaskAction := fun _taskArgs hre out =>
  match hre.getSigners with
  | Except.error e => (out, Except.error e)
  | Except.ok accounts => (forOfAccounts accounts out, Except.ok JSValue.undefined)

/-- What a call `task(name, description, action)` hands to the task runner. -/
structure TaskDefinition where
  name : String
  description : String
  action : TaskAction

/-- The arguments of the one `task(...)` call of the file. -/
def accountsTask : TaskDefinition :=
  { name := "accounts", description := "Prints the list of accounts", action := accountsAction }

/-! ## Loading the module -/

/-- The external functions the file calls, over a task registry of type `ρ`:
`config` of dotenv, which rewrites `process.env`, and `task` of the task runner,
which may refuse a definition. -/
structure Host (ρ : Type) where
  dotenvConfig : ProcessEnv → ProcessEnv
  task : TaskDefinition → ρ → Except String ρ

/-- The object literal assigned to `module.exports`, evaluated in the scope of the two
constants of line 6. The `networks` block that mentions them is commented out. -/
def moduleExports (_API_URL _PRIVATE_KEY : JSValue) : JSValue :=
  JSValue.object [
    ("solidity", JSValue.string "0.8.20"),
    ("settings", JSValue.object [
      ("optimizer", JSValue.object [
        ("enabled", JSValue.bool true),
        ("runs", JSValue.number 1000)])])]

/-- The module after a load: the two constants of line 6, the task registry and
`module.exports`. -/
structure Module (ρ : Type) where
  API_URL : JSValue
  PRIVATE_KEY : JSValue
  registry : ρ
  exports : JSValue

/-- Running the file top to bottom against a host, an environment and a registry. -/
def load {ρ : Type} (host : Host ρ) (env : ProcessEnv) (registry : ρ) : Except String (Module ρ) :=
  let env := host.dotenvConfig env
  let API_URL := env.read "API_URL"
  let PRIVATE_KEY := env.read "PRIVATE_KEY"
  match host.task accountsTask registry with
  | Except.error e => Except.error e
  | Except.ok registry =>
    Except.ok
      { API_URL := API_URL
        PRIVATE_KEY := PRIVATE_KEY
        registry := registry
        exports := moduleExports API_URL PRIVATE_KEY }

/-! ## A name-keyed task registry -/

/-- The registry of the task runner: the active task definitions. -/
abbrev TaskRegistry := List TaskDefinition

/-- Modelled from the spec: the `task` function of the external task runner, which is
not part of the repository. The spec says of it only that registering a name again
raises no error and leaves exactly one active registration of that name; the
model keys the registry by name, so a registration replaces any earlier one of
the same name and never fails. -/
def registerTask (definition : TaskDefinition) (registry : TaskRegistry) : Except String TaskRegistry :=
  Except.ok (registry.filter (fun t => t.name != definition.name) ++ [definition])

/-- A host with the name-keyed registry, for any behaviour of dotenv. -/
def nameKeyedHost (dotenvConfig : ProcessEnv → ProcessEnv) : Host TaskRegistry :=
  { dotenvConfig := dotenvConfig, task := registerTask }

/-- The names and descriptions of the registered tasks, in registry order. -/
def TaskRegistry.listing (registry : TaskRegistry) : List (String × String) :=
  registry.map (fun t => (t.name, t.description))

/-! ## Lemmas -/

/-- The loop appends the addresses of the identities, in order, to the console. -/
theorem forOfAccounts_eq (accounts : List Signer) (out : Console) :
    forOfAccounts accounts out = out ++ accounts.map Signer.address := by
  induction accounts generalizing out with
  | nil => simp [forOfAccounts]
  | cons account rest ih => simp [forOfAccounts, consoleLog, ih]

/-- The action when the enumeration of the identities succeeds. -/
theorem accountsAction_ok (taskArgs : JSValue) (hre : HardhatRuntimeEnvironment)
    (accounts : List Signer) (out : Console) (h : hre.getSigners = Except.ok accounts) :
    accountsAction taskArgs hre out
      = (out ++ accounts.map Signer.address, Except.ok JSValue.undefined) := by
  simp [accountsAction, h, forOfAccounts_eq]

/-- A load succeeds as soon as the task runner accepts the registration. -/
theorem load_of_task_ok {ρ : Type} (host : Host ρ) (env : ProcessEnv) (registry registry' : ρ)
    (h : host.task accountsTask registry = Except.ok registry') :
    load host env registry = Except.ok
      { API_URL := (host.dotenvConfig env).read "API_URL"
        PRIVATE_KEY := (host.dotenvConfig env).read "PRIVATE_KEY"
        registry := registry'
        exports := moduleExports JSValue.undefined JSValue.undefined } := by
  simp [load, h, moduleExports]

/-- A load fails with the error of the task runner when the registration is refused. -/
theorem load_of_task_error {ρ : Type} (host : Host ρ) (env : ProcessEnv) (registry : ρ)
    (e : String) (h : host.task accountsTask registry = Except.error e) :
    load host env registry = Except.error e := by
  simp [load, h]

/-- Registering a definition twice in the name-keyed registry is registering it once. -/
theorem registerTask_twice (definition : TaskDefinition) (registry : TaskRegistry) :
    registerTask definition (registry.filter (fun t => t.name != definition.name) ++ [definition])
      = registerTask definition registry := by
  simp [registerTask, List.filter_append, List.filter_filter]

/-- After a registration the name-keyed registry holds one entry of that name. -/
theorem filter_name_after_register (definition : TaskDefinition) (registry : TaskRegistry) :
    (registry.filter (fun t => t.name != definition.name) ++ [definition]).filter
        (fun t => t.name == definition.name) = [definition] := by
  simp [List.filter_append, List.filter_filter]

/-! ## The `accounts` task: properties -/

/-- C1: when the signer enumeration of the execution context yields the identities
`accounts`, the registered `accounts` task resolves, the lines it writes after the
earlier console content are the addresses of the identities in the order yielded,
so run on an empty console it emits exactly as many lines as there are identities
and the line at each position is the address of the identity at that position. -/
theorem accounts_emits_addresses_in_order (taskArgs : JSValue)
    (hre : HardhatRuntimeEnvironment) (accounts : List Signer) (out : Console)
    (h : hre.getSigners = Except.ok accounts) :
    accountsTask.action taskArgs hre out
        = (out ++ accounts.map Signer.address, Except.ok JSValue.undefined)
      ∧ (accountsTask.action taskArgs hre []).1 = accounts.map Signer.address
      ∧ (accountsTask.action taskArgs hre []).1.length = accounts.length
      ∧ ∀ i : Nat, (accountsTask.action taskArgs hre []).1[i]?
          = (accounts[i]?).map Signer.address := by
  have hrun : ∀ o : Console, accountsTask.action taskArgs hre o
      = (o ++ accounts.map Signer.address, Except.ok JSValue.undefined) :=
    fun o => accountsAction_ok taskArgs hre accounts o h
  refine ⟨hrun out, ?_, ?_, ?_⟩
  · simp [hrun]
  · simp [hrun]
  · intro i
    simp [hrun]

/-- C1 at the identities `0xA`, `0xB`, `0xC`, written after one earlier line. -/
theorem accounts_emits_addresses_in_order_witness :
    (HardhatRuntimeEnvironment.mk (Except.ok [⟨"0xA"⟩, ⟨"0xB"⟩, ⟨"0xC"⟩])).getSigners
        = Except.ok [⟨"0xA"⟩, ⟨"0xB"⟩, ⟨"0xC"⟩]
      ∧ accountsTask.action JSValue.undefined
          (HardhatRuntimeEnvironment.mk (Except.ok [⟨"0xA"⟩, ⟨"0xB"⟩, ⟨"0xC"⟩])) ["earlier"]
        = (["earlier", "0xA", "0xB", "0xC"], Except.ok JSValue.undefined) :=
  ⟨rfl, (accounts_emits_addresses_in_order JSValue.undefined
    (HardhatRuntimeEnvironment.mk (Except.ok [⟨"0xA"⟩, ⟨"0xB"⟩, ⟨"0xC"⟩]))
    [⟨"0xA"⟩, ⟨"0xB"⟩, ⟨"0xC"⟩] ["earlier"] rfl).1⟩

/-- C5: when the signer enumeration yields no identity, the `accounts` task leaves the
console as it was, so it emits no line, and it resolves without an error. -/
theorem accounts_no_identities (taskArgs : JSValue) (hre : HardhatRuntimeEnvironment)
    (out : Console) (h : hre.getSigners = Except.ok []) :
    accountsTask.action taskArgs hre out = (out, Except.ok JSValue.undefined)
      ∧ (accountsTask.action taskArgs hre []).1.length = 0 := by
  have hrun : ∀ o : Console, accountsTask.action taskArgs hre o
      = (o, Except.ok JSValue.undefined) := by
    intro o
    have := accountsAction_ok taskArgs hre [] o h
    simpa using this
  exact ⟨hrun out, by simp [hrun]⟩

/-- C5 at the execution context with an empty enumeration and an empty console. -/
theorem accounts_no_identities_witness :
    (HardhatRuntimeEnvironment.mk (Except.ok [])).getSigners = Except.ok []
      ∧ accountsTask.action (JSValue.object []) (HardhatRuntimeEnvironment.mk (Except.ok [])) []
        = ([], Except.ok JSValue.undefined) :=
  ⟨rfl, (accounts_no_identities (JSValue.object [])
    (HardhatRuntimeEnvironment.mk (Except.ok [])) [] rfl).1⟩

/-- C10: the `accounts` task does not read its task arguments: for any two argument
objects and the same execution context and console, the console afterwards and the
result are the same. The result is `undefined` whenever the enumeration of the
identities succeeds (and the rejection of the enumeration otherwise), and the run
only adds lines after the earlier console content. -/
theorem accounts_ignores_task_arguments (taskArgs₁ taskArgs₂ : JSValue)
    (hre : HardhatRuntimeEnvironment) (out : Console) :
    accountsTask.action taskArgs₁ hre out = accountsTask.action taskArgs₂ hre out
      ∧ (accountsTask.action taskArgs₁ hre out).2
          = hre.getSigners.map (fun _ => JSValue.undefined)
      ∧ ∃ emitted : List String, (accountsTask.action taskArgs₁ hre out).1 = out ++ emitted := by
  refine ⟨rfl, ?_, ?_⟩
  · cases hs : hre.getSigners with
    | error e => simp [accountsTask, accountsAction, hs, Except.map]
    | ok accounts => simp [accountsTask, accountsAction, hs, Except.map]
  · cases hs : hre.getSigners with
    | error e => exact ⟨[], by simp [accountsTask, accountsAction, hs]⟩
    | ok accounts =>
      exact ⟨accounts.map Signer.address, by
        simp [accountsTask, accountsAction_ok taskArgs₁ hre accounts out hs]⟩

/-! ## The exported configuration: properties -/

/-- C2: whenever the task runner accepts the registration, the load yields a module
whose exported `solidity` field is the string `0.8.20`, and not the commented-out
`0.8.24`, whatever the environment. -/
theorem exports_solidity {ρ : Type} (host : Host ρ) (env : ProcessEnv) (registry registry' : ρ)
    (h : host.task accountsTask registry = Except.ok registry') :
    ∃ m : Module ρ, load host env registry = Except.ok m
      ∧ m.exports.get "solidity" = JSValue.string "0.8.20"
      ∧ m.exports.get "solidity" ≠ JSValue.string "0.8.24" := by
  refine ⟨_, load_of_task_ok host env registry registry' h, ?_, ?_⟩
  · rfl
  · show JSValue.string "0.8.20" ≠ JSValue.string "0.8.24"
    intro hne
    injection hne with hs
    exact absurd hs (by decide)

/-- C2 with the name-keyed registry, empty, and an environment that sets both variables. -/
theorem exports_solidity_witness :
    (nameKeyedHost id).task accountsTask [] = Except.ok [accountsTask]
      ∧ ∃ m : Module TaskRegistry,
          load (nameKeyedHost id) [("API_URL", "http://localhost:8545"), ("PRIVATE_KEY", "ab12")] []
            = Except.ok m
          ∧ m.exports.get "solidity" = JSValue.string "0.8.20"
          ∧ m.exports.get "solidity" ≠ JSValue.string "0.8.24" :=
  ⟨rfl, exports_solidity (nameKeyedHost id)
    [("API_URL", "http://localhost:8545"), ("PRIVATE_KEY", "ab12")] [] [accountsTask] rfl⟩

/-- C3: whenever the task runner accepts the registration, the load yields a module
whose exported `settings.optimizer.enabled` is `true` and whose
`settings.optimizer.runs` is the number 1000, a positive integer. -/
theorem exports_optimizer {ρ : Type} (host : Host ρ) (env : ProcessEnv) (registry registry' : ρ)
    (h : host.task accountsTask registry = Except.ok registry') :
    ∃ m : Module ρ, load host env registry = Except.ok m
      ∧ ((m.exports.get "settings").get "optimizer").get "enabled" = JSValue.bool true
      ∧ ∃ runs : Int, ((m.exports.get "settings").get "optimizer").get "runs" = JSValue.number runs
          ∧ runs = 1000 ∧ 0 < runs := by
  refine ⟨_, load_of_task_ok host env registry registry' h, ?_, 1000, ?_, rfl, by decide⟩
  · rfl
  · rfl

/-- C3 with the name-keyed registry, empty, and the empty environment. -/
theorem exports_optimizer_witness :
    (nameKeyedHost id).task accountsTask [] = Except.ok [accountsTask]
      ∧ ∃ m : Module TaskRegistry, load (nameKeyedHost id) [] [] = Except.ok m
          ∧ ((m.exports.get "settings").get "optimizer").get "enabled" = JSValue.bool true
          ∧ ∃ runs : Int,
              ((m.exports.get "settings").get "optimizer").get "runs" = JSValue.number runs
              ∧ runs = 1000 ∧ 0 < runs :=
  ⟨rfl, exports_optimizer (nameKeyedHost id) [] [] [accountsTask] rfl⟩

/-- C7: whenever the task runner accepts the registration, the load yields a module
whose exported object has exactly the top-level fields `solidity` and `settings`:
it has no `networks` field, and reading `networks` gives `undefined`. -/
theorem exports_no_networks {ρ : Type} (host : Host ρ) (env : ProcessEnv) (registry registry' : ρ)
    (h : host.task accountsTask registry = Except.ok registry') :
    ∃ m : Module ρ, load host env registry = Except.ok m
      ∧ m.exports.keys = ["solidity", "settings"]
      ∧ m.exports.hasField "networks" = false
      ∧ m.exports.get "networks" = JSValue.undefined := by
  refine ⟨_, load_of_task_ok host env registry registry' h, ?_, ?_, ?_⟩
  · rfl
  · rfl
  · rfl

/-- C7 with the name-keyed registry, empty, and an environment that sets both variables. -/
theorem exports_no_networks_witness :
    (nameKeyedHost id).task accountsTask [] = Except.ok [accountsTask]
      ∧ ∃ m : Module TaskRegistry,
          load (nameKeyedHost id) [("PRIVATE_KEY", "ab12"), ("API_URL", "https://rpc.example")] []
            = Except.ok m
          ∧ m.exports.keys = ["solidity", "settings"]
          ∧ m.exports.hasField "networks" = false
          ∧ m.exports.get "networks" = JSValue.undefined :=
  ⟨rfl, exports_no_networks (nameKeyedHost id)
    [("PRIVATE_KEY", "ab12"), ("API_URL", "https://rpc.example")] [] [accountsTask] rfl⟩

/-- C9: the exported configuration does not depend on the environment: for any two
environments, the same host and the same registry, the two loads export equal
configurations (or fail alike), and the configuration exported is the one built
with both variables absent, so it carries nothing of their values. -/
theorem exports_independent_of_environment {ρ : Type} (host : Host ρ)
    (env₁ env₂ : ProcessEnv) (registry : ρ) :
    (load host env₁ registry).map Module.exports = (load host env₂ registry).map Module.exports
      ∧ (load host env₁ registry).map Module.exports
          = (host.task accountsTask registry).map
              (fun _ => moduleExports JSValue.undefined JSValue.undefined) := by
  cases ht : host.task accountsTask registry with
  | error e =>
    simp [load_of_task_error host _ registry e ht, Except.map]
  | ok registry' =>
    simp [load_of_task_ok host _ registry registry' ht, Except.map]

/-! ## Loading and registration: properties -/

/-- C4: the load performs no validation of `API_URL` and `PRIVATE_KEY` and does not
fail on them: whenever the task runner accepts the registration, for every
environment the load completes, the two constants hold whatever the environment
gives (`undefined` when unset) and the exports are the configuration object. -/
theorem load_never_raises {ρ : Type} (host : Host ρ) (env : ProcessEnv) (registry registry' : ρ)
    (h : host.task accountsTask registry = Except.ok registry') :
    load host env registry = Except.ok
      { API_URL := (host.dotenvConfig env).read "API_URL"
        PRIVATE_KEY := (host.dotenvConfig env).read "PRIVATE_KEY"
        registry := registry'
        exports := moduleExports JSValue.undefined JSValue.undefined } := by
  unfold load
  simp only [h]
  rfl

/-- C4 in the environment where both variables are unset. -/
theorem load_never_raises_witness :
    (nameKeyedHost id).task accountsTask [] = Except.ok [accountsTask]
      ∧ load (nameKeyedHost id) [] [] = Except.ok
          { API_URL := JSValue.undefined
            PRIVATE_KEY := JSValue.undefined
            registry := [accountsTask]
            exports := moduleExports JSValue.undefined JSValue.undefined } :=
  ⟨rfl, load_never_raises (nameKeyedHost id) [] [] [accountsTask] rfl⟩

/-- C6: a load makes exactly one call of `task`, with the name `accounts`, the
description `Prints the list of accounts` and the action of the file: for every
host the registry after the load is the outcome of that one call on the registry
before. Into the empty name-keyed registry the load completes and leaves a
registry of exactly one task, of that name and description. -/
theorem load_registers_accounts {ρ : Type} (host : Host ρ) (registry : ρ)
    (dotenvConfig : ProcessEnv → ProcessEnv) (env : ProcessEnv) :
    (load host env registry).map Module.registry = host.task accountsTask registry
      ∧ accountsTask.name = "accounts"
      ∧ accountsTask.description = "Prints the list of accounts"
      ∧ ∃ m : Module TaskRegistry, load (nameKeyedHost dotenvConfig) env [] = Except.ok m
          ∧ m.registry = [accountsTask]
          ∧ m.registry.length = 1
          ∧ m.registry.listing = [("accounts", "Prints the list of accounts")] := by
  refine ⟨?_, rfl, rfl, _,
    load_of_task_ok (nameKeyedHost dotenvConfig) env [] [accountsTask] rfl, rfl, rfl, rfl⟩
  cases ht : host.task accountsTask registry with
  | error e => simp [load_of_task_error host env registry e ht, Except.map]
  | ok registry' => simp [load_of_task_ok host env registry registry' ht, Except.map]

/-- C8: registration is idempotent on the name-keyed registry: from any registry and
for any environments, a first load and a second load on its registry both
complete, the registry after the second equals the registry after the first,
and it holds exactly one entry named `accounts`, the task of the file. -/
theorem registration_idempotent (dotenvConfig : ProcessEnv → ProcessEnv)
    (env₁ env₂ : ProcessEnv) (registry : TaskRegistry) :
    ∃ m₁ m₂ : Module TaskRegistry,
      load (nameKeyedHost dotenvConfig) env₁ registry = Except.ok m₁
      ∧ load (nameKeyedHost dotenvConfig) env₂ m₁.registry = Except.ok m₂
      ∧ m₂.registry = m₁.registry
      ∧ m₂.registry.filter (fun t => t.name == "accounts") = [accountsTask]
      ∧ (m₂.registry.filter (fun t => t.name == "accounts")).length = 1 := by
  have h₁ : (nameKeyedHost dotenvConfig).task accountsTask registry
      = Except.ok (registry.filter (fun t => t.name != accountsTask.name) ++ [accountsTask]) := rfl
  have h₂ : (nameKeyedHost dotenvConfig).task accountsTask
        (registry.filter (fun t => t.name != accountsTask.name) ++ [accountsTask])
      = Except.ok (registry.filter (fun t => t.name != accountsTask.name) ++ [accountsTask]) := by
    show registerTask accountsTask _ = _
    rw [registerTask_twice]
    rfl
  have h₃ := filter_name_after_register accountsTask registry
  refine ⟨_, _, load_of_task_ok _ env₁ registry _ h₁, load_of_task_ok _ env₂ _ _ h₂, rfl, ?_, ?_⟩
  · exact h₃
  · show (List.filter (fun t : TaskDefinition => t.name == accountsTask.name) _).length = 1
    rw [h₃]
    rfl

end HardhatConfig
